import Mathlib

/-!
Verification of the timing core of `tracy-client-sys` (TracyTimer.hpp and
TracyYield.hpp), shallowly embedded in Lean.

C++ `int64_t` arithmetic is modelled over `Int`; the C++ operators `/` and `%`
truncate toward zero, which is `Int.tdiv` and `Int.tmod`.  Overflow questions
are handled by an explicit "fits in int64" predicate on the exact `Int`
intermediate values.
-/

/-- Embeds `clock_scale_generic` from TracyTimer.hpp (lines 50-61):
`whole = (_counter / _freq) * _period_den;
 part  = (_counter % _freq) * _period_den / _freq;
 return whole + part;`  with C++ truncating division/modulus. -/
def clock_scale_generic (f c d : Int) : Int :=
  (Int.tdiv c f) * d + Int.tdiv ((Int.tmod c f) * d) f

/-- Embeds `clock_scale_10MHz` (lines 67-71): calls the generic path with the
constant frequency 10000000. -/
def clock_scale_10MHz (c d : Int) : Int :=
  clock_scale_generic 10000000 c d

/-- Embeds `clock_scale_24MHz` (lines 77-81): calls the generic path with the
constant frequency 24000000. -/
def clock_scale_24MHz (c d : Int) : Int :=
  clock_scale_generic 24000000 c d

/-- `std::chrono::nanoseconds::period::den`, the period denominator used by
every clock variant in the file. -/
def nano_period_den : Int := 1000000000

/-- The first intermediate of the split computation:
`(_counter / _freq) * _period_den`. -/
def scale_whole (f c d : Int) : Int :=
  (Int.tdiv c f) * d

/-- The multiplication inside the second intermediate:
`(_counter % _freq) * _period_den`. -/
def scale_part_num (f c d : Int) : Int :=
  (Int.tmod c f) * d

/-- The second intermediate of the split computation:
`(_counter % _freq) * _period_den / _freq`. -/
def scale_part (f c d : Int) : Int :=
  Int.tdiv (scale_part_num f c d) f

/-- An exact integer value is representable as a C++ `int64_t` (no overflow
when the C++ expression computes it). -/
def fitsInt64 (x : Int) : Prop :=
  -(2 ^ 63) ≤ x ∧ x < 2 ^ 63

instance (x : Int) : Decidable (fitsInt64 x) :=
  inferInstanceAs (Decidable (_ ∧ _))

/-- C++ `/` on int64, made total with an explicit division-by-zero error
branch, to express that the code performs an unguarded division. -/
def checkedTDiv (a b : Int) : Option Int :=
  if b = 0 then none else some (Int.tdiv a b)

/-- C++ `%` on int64, made total with an explicit division-by-zero error
branch. -/
def checkedTMod (a b : Int) : Option Int :=
  if b = 0 then none else some (Int.tmod a b)

/-- `clock_scale_generic` with every division and modulus routed through the
total checked operations; `none` means a division by zero was reached. -/
def clock_scale_generic_checked (f c d : Int) : Option Int := do
  let q ← checkedTDiv c f
  let r ← checkedTMod c f
  let part ← checkedTDiv (r * d) f
  pure (q * d + part)

/-- Embeds `win32_performance_counter::qpc_scale_dispatch` (lines 199-206):
a switch on the frequency value choosing the 10 MHz or 24 MHz specialization,
falling through to the generic path, always with `period::den = 10^9`. -/
def qpc_scale_dispatch (f c : Int) : Int :=
  if f = 10000000 then clock_scale_10MHz c nano_period_den
  else if f = 24000000 then clock_scale_24MHz c nano_period_den
  else clock_scale_generic f c nano_period_den

/-- Embeds `cpu_clock::cpu_clock_scale_dispatch` (lines 230-236): a switch on
the frequency choosing the 24 MHz specialization, else the generic path. -/
def cpu_clock_scale_dispatch (f c : Int) : Int :=
  if f = 24000000 then clock_scale_24MHz c nano_period_den
  else clock_scale_generic f c nano_period_den

/-- A `struct timespec` as filled in by `clock_gettime`. -/
structure timespec where
  tv_sec : Int
  tv_nsec : Int

/-- `std::chrono::seconds(s)` converted to the nanoseconds representation. -/
def seconds_to_nanoseconds (s : Int) : Int :=
  s * nano_period_den

/-- Embeds `monotonic_raw::now` (lines 159-165): the timespec from
`clock_gettime(CLOCK_MONOTONIC_RAW, ...)` is turned into the nanosecond count
`seconds(tv_sec) + nanoseconds(tv_nsec)`, with no scaling arithmetic. -/
def monotonic_raw_now (ts : timespec) : Int :=
  seconds_to_nanoseconds ts.tv_sec + ts.tv_nsec

/-- Embeds `monotonic::now` (lines 178-184), identical except for the clock id
passed to `clock_gettime`. -/
def monotonic_now (ts : timespec) : Int :=
  seconds_to_nanoseconds ts.tv_sec + ts.tv_nsec

/-- The environment a `now()` call reads from: the hardware/OS counters and
frequencies.  The C++ functions only read these; modelling `now` as
state-passing `World → Int × World` makes "writes no mutable state" a
provable statement. -/
structure World where
  qpc_freq : Int
  qpc_counter : Int
  cpu_freq : Int
  cpu_counter : Int

/-- Embeds `win32_performance_counter::now` (lines 209-215): reads
`QueryPerformanceFrequency` and `QueryPerformanceCounter`, scales via
`qpc_scale_dispatch`, and mutates nothing. -/
def win32_performance_counter_now (w : World) : Int × World :=
  (qpc_scale_dispatch w.qpc_freq w.qpc_counter, w)

/-- Embeds `cpu_clock::now` (lines 239-245): reads the ARM64 virtual counter
frequency and value registers, scales via `cpu_clock_scale_dispatch`, and
mutates nothing. -/
def cpu_clock_now (w : World) : Int × World :=
  (cpu_clock_scale_dispatch w.cpu_freq w.cpu_counter, w)

/-- The preprocessor capabilities that drive the `high_res_time` selection
chain (lines 251-267): `TRACY_TIMER_FALLBACK`,
`TRACY_HAVE_CPU_CLOCK_KNOWN_FREQUENCY`, `CLOCK_MONOTONIC_RAW`,
`CLOCK_MONOTONIC`, `_WIN32`. -/
structure PlatformCaps where
  tracy_timer_fallback : Bool
  have_cpu_clock_known_frequency : Bool
  clock_monotonic_raw : Bool
  clock_monotonic : Bool
  win32 : Bool

/-- The closed set of clock source variants the header can select. -/
inductive ClockVariant where
  | cpu_clock
  | monotonic_raw
  | monotonic
  | win32_performance_counter
  | steady_clock
deriving DecidableEq

/-- Embeds the `high_res_time` alias selection (lines 251-267): the
`#if TRACY_TIMER_FALLBACK / #if ... #elif ... #else` chain as a function of
the capability flags. -/
def high_res_time (p : PlatformCaps) : ClockVariant :=
  if p.tracy_timer_fallback then ClockVariant.steady_clock
  else if p.have_cpu_clock_known_frequency then ClockVariant.cpu_clock
  else if p.clock_monotonic_raw then ClockVariant.monotonic_raw
  else if p.clock_monotonic then ClockVariant.monotonic
  else if p.win32 then ClockVariant.win32_performance_counter
  else ClockVariant.steady_clock

/-! ## Helper lemmas about the split scaling computation -/

/-- `Int.tmod` is odd in its first argument. -/
theorem tmod_neg_left (a b : Int) : Int.tmod (-a) b = -(Int.tmod a b) := by
  rw [Int.tmod_def, Int.tmod_def, Int.neg_tdiv, Int.mul_neg]
  ring

/-- The split computation is odd in the counter, for any frequency and
period denominator. -/
theorem clock_scale_generic_neg_counter (f c d : Int) :
    clock_scale_generic f (-c) d = -(clock_scale_generic f c d) := by
  unfold clock_scale_generic
  rw [Int.neg_tdiv, tmod_neg_left, Int.neg_mul, Int.neg_mul, Int.neg_tdiv]
  ring

/-- For a nonnegative counter, the split computation equals the naive
truncated quotient `(c * d) / f`. -/
theorem clock_scale_generic_eq_tdiv_of_nonneg (f c d : Int)
    (hf : 0 < f) (hc : 0 ≤ c) (hd : 0 ≤ d) :
    clock_scale_generic f c d = Int.tdiv (c * d) f := by
  unfold clock_scale_generic
  rw [Int.tdiv_eq_ediv hc hf.le, Int.tmod_eq_emod hc hf.le,
    Int.tdiv_eq_ediv (Int.mul_nonneg (Int.emod_nonneg c hf.ne') hd) hf.le,
    Int.tdiv_eq_ediv (Int.mul_nonneg hc hd) hf.le]
  conv_rhs => rw [← Int.ediv_add_emod c f]
  rw [Int.add_mul, Int.mul_assoc]
  rw [Int.mul_comm f (c / f * d), Int.add_comm (c / f * d * f) (c % f * d),
    Int.add_mul_ediv_right _ _ hf.ne']
  ring

/-- For any counter sign, the split computation equals the naive truncated
quotient `(c * d) / f` (C++ semantics), provided `f > 0` and `d ≥ 0`. -/
theorem clock_scale_generic_eq_tdiv (f c d : Int)
    (hf : 0 < f) (hd : 0 ≤ d) :
    clock_scale_generic f c d = Int.tdiv (c * d) f := by
  rcases le_or_lt 0 c with hc | hc
  · exact clock_scale_generic_eq_tdiv_of_nonneg f c d hf hc hd
  · have h := clock_scale_generic_eq_tdiv_of_nonneg f (-c) d hf (by omega) hd
    rw [clock_scale_generic_neg_counter] at h
    have : clock_scale_generic f c d = -(Int.tdiv (-c * d) f) := by omega
    rw [this, Int.neg_mul, Int.neg_tdiv]
    ring

/-- Truncating division is monotone in the dividend for a positive divisor. -/
theorem tdiv_le_tdiv_right {a b : Int} (f : Int) (hf : 0 < f) (h : a ≤ b) :
    Int.tdiv a f ≤ Int.tdiv b f := by
  rcases le_or_lt 0 a with ha | ha
  · rw [Int.tdiv_eq_ediv ha hf.le, Int.tdiv_eq_ediv (ha.trans h) hf.le]
    exact Int.ediv_le_ediv hf h
  · rcases le_or_lt 0 b with hb | hb
    · have h1 : Int.tdiv a f ≤ 0 := by
        have : Int.tdiv (-a) f = -(Int.tdiv a f) := Int.neg_tdiv a f
        have hpos : 0 ≤ Int.tdiv (-a) f := Int.tdiv_nonneg (by omega) hf.le
        omega
      exact h1.trans (Int.tdiv_nonneg hb hf.le)
    · have ha' : Int.tdiv a f = -(Int.tdiv (-a) f) := by
        rw [Int.neg_tdiv]; ring
      have hb' : Int.tdiv b f = -(Int.tdiv (-b) f) := by
        rw [Int.neg_tdiv]; ring
      rw [ha', hb', Int.tdiv_eq_ediv (by omega) hf.le, Int.tdiv_eq_ediv (by omega) hf.le]
      have := Int.ediv_le_ediv hf (show -b ≤ -a by omega)
      omega

/-- The dispatch switch of `win32_performance_counter` agrees with the generic
path at every frequency. -/
theorem qpc_scale_dispatch_eq_generic (f c : Int) :
    qpc_scale_dispatch f c = clock_scale_generic f c nano_period_den := by
  unfold qpc_scale_dispatch clock_scale_10MHz clock_scale_24MHz
  split_ifs with h1 h2 <;> simp_all

/-- The dispatch switch of `cpu_clock` agrees with the generic path at every
frequency. -/
theorem cpu_clock_scale_dispatch_eq_generic (f c : Int) :
    cpu_clock_scale_dispatch f c = clock_scale_generic f c nano_period_den := by
  unfold cpu_clock_scale_dispatch clock_scale_24MHz
  split_ifs with h1 <;> simp [h1]

/-! ## Claim theorems -/

/-- C3: the specialized scaling paths and the frequency-dispatch functions are
extensionally equal to the generic path: `clock_scale_10MHz c d` and
`clock_scale_24MHz c d` equal `clock_scale_generic` at frequencies 10^7 and
24·10^6, and both dispatch switches equal `clock_scale_generic f c 10^9`. -/
theorem C3_specializations_equal_generic :
    (∀ c d : Int, clock_scale_10MHz c d = clock_scale_generic 10000000 c d) ∧
    (∀ c d : Int, clock_scale_24MHz c d = clock_scale_generic 24000000 c d) ∧
    (∀ f c : Int, qpc_scale_dispatch f c = clock_scale_generic f c 1000000000) ∧
    (∀ f c : Int, cpu_clock_scale_dispatch f c = clock_scale_generic f c 1000000000) :=
  ⟨fun _ _ => rfl, fun _ _ => rfl,
   fun f c => qpc_scale_dispatch_eq_generic f c,
   fun f c => cpu_clock_scale_dispatch_eq_generic f c⟩

/-- C7: the concrete scenario frequency 10^7, counter 123456789, period
denominator 10^9 yields exactly 12345678900 nanoseconds, both through the
10 MHz specialization and through the generic path. -/
theorem C7_concrete_scenario :
    clock_scale_10MHz 123456789 1000000000 = 12345678900 ∧
    clock_scale_generic 10000000 123456789 1000000000 = 12345678900 := by
  constructor <;> decide

/-- C8: the clock-gettime based variants apply no scaling arithmetic: for
every timespec, `monotonic_raw::now` and `monotonic::now` return exactly
`tv_sec * 10^9 + tv_nsec` nanoseconds. -/
theorem C8_gettime_variants_no_scaling (ts : timespec) :
    monotonic_raw_now ts = ts.tv_sec * 1000000000 + ts.tv_nsec ∧
    monotonic_now ts = ts.tv_sec * 1000000000 + ts.tv_nsec :=
  ⟨rfl, rfl⟩

/-- C1: for `f > 0` and `0 ≤ c < 2^62`, `clock_scale_generic f c 10^9` is the
mathematically exact `floor(c * 10^9 / f)` — it brackets the product `c * 10^9`
between `result * f` and `(result + 1) * f` — and the split computation loses
no precision versus the naive truncated quotient `(c * 10^9) / f`. -/
theorem C1_scale_exact (f c : Int) (hf : 0 < f) (hc0 : 0 ≤ c) (_hc : c < 2 ^ 62) :
    clock_scale_generic f c 1000000000 * f ≤ c * 1000000000 ∧
    c * 1000000000 < (clock_scale_generic f c 1000000000 + 1) * f ∧
    clock_scale_generic f c 1000000000 = Int.tdiv (c * 1000000000) f := by
  have hd : (0 : Int) ≤ 1000000000 := by norm_num
  have heq := clock_scale_generic_eq_tdiv_of_nonneg f c 1000000000 hf hc0 hd
  have hnn : 0 ≤ c * 1000000000 := Int.mul_nonneg hc0 hd
  refine ⟨?_, ?_, heq⟩
  · rw [heq, Int.tdiv_eq_ediv hnn hf.le]
    exact Int.ediv_mul_le _ hf.ne'
  · rw [heq, Int.tdiv_eq_ediv hnn hf.le]
    exact Int.lt_ediv_add_one_mul_self _ hf

/-- C1 witness at `f = 3`, `c = 10`. -/
theorem C1_scale_exact_witness :
    clock_scale_generic 3 10 1000000000 * 3 ≤ 10 * 1000000000 ∧
    10 * 1000000000 < (clock_scale_generic 3 10 1000000000 + 1) * 3 ∧
    clock_scale_generic 3 10 1000000000 = Int.tdiv (10 * 1000000000) 3 :=
  C1_scale_exact 3 10 (by norm_num) (by norm_num) (by norm_num)

/-- C2 counterexample: at frequency `f = 1` and counter `c = 2^62 - 1` — inside
the claimed bounds `0 < f ≤ 10^10`, `0 ≤ c < 2^62` — the first intermediate
`(c / f) * 10^9` of the split computation does not fit in int64. -/
theorem C2_counterexample :
    (0 : Int) < 1 ∧ (1 : Int) ≤ 10 ^ 10 ∧ (0 : Int) ≤ 2 ^ 62 - 1 ∧
    (2 : Int) ^ 62 - 1 < 2 ^ 62 ∧
    ¬ fitsInt64 (scale_whole 1 (2 ^ 62 - 1) 1000000000) := by
  refine ⟨by norm_num, by norm_num, by norm_num, by norm_num, ?_⟩
  decide

/-- C2 (amended): for `f > 0` and `c ≥ 0`, whenever `f * 10^9 < 2^63` and the
exact result `(c * 10^9) / f` is below `2^63`, every intermediate of the split
computation — `(c / f) * 10^9`, `(c mod f) * 10^9`, `((c mod f) * 10^9) / f`,
and `whole + part` — fits in a signed 64-bit integer. -/
theorem C2_split_no_overflow (f c : Int) (hf : 0 < f) (hc0 : 0 ≤ c)
    (hfd : f * 1000000000 < 2 ^ 63)
    (hres : Int.tdiv (c * 1000000000) f < 2 ^ 63) :
    fitsInt64 (scale_whole f c 1000000000) ∧
    fitsInt64 (scale_part_num f c 1000000000) ∧
    fitsInt64 (scale_part f c 1000000000) ∧
    fitsInt64 (scale_whole f c 1000000000 + scale_part f c 1000000000) := by
  have h63 : (2 : Int) ^ 63 = 9223372036854775808 := by norm_num
  rw [h63] at hfd hres
  have hq : 0 ≤ Int.tdiv c f := Int.tdiv_nonneg hc0 hf.le
  have hwhole : 0 ≤ scale_whole f c 1000000000 :=
    Int.mul_nonneg hq (by norm_num)
  have hr0 : 0 ≤ Int.tmod c f := Int.tmod_nonneg f hc0
  have hrlt : Int.tmod c f < f := Int.tmod_lt_of_pos c hf
  have hpn0 : 0 ≤ scale_part_num f c 1000000000 :=
    Int.mul_nonneg hr0 (by norm_num)
  have hpnlt : scale_part_num f c 1000000000 < f * 1000000000 := by
    unfold scale_part_num
    exact mul_lt_mul_of_pos_right hrlt (by norm_num)
  have hpart : 0 ≤ scale_part f c 1000000000 :=
    Int.tdiv_nonneg hpn0 hf.le
  have hsum : scale_whole f c 1000000000 + scale_part f c 1000000000 =
      Int.tdiv (c * 1000000000) f := by
    have h := clock_scale_generic_eq_tdiv_of_nonneg f c 1000000000 hf hc0 (by norm_num)
    simpa [clock_scale_generic, scale_whole, scale_part, scale_part_num] using h
  simp only [fitsInt64, h63]
  omega

/-- C2 witness at `f = 10^7`, `c = 123456789`. -/
theorem C2_split_no_overflow_witness :
    fitsInt64 (scale_whole 10000000 123456789 1000000000) ∧
    fitsInt64 (scale_part_num 10000000 123456789 1000000000) ∧
    fitsInt64 (scale_part 10000000 123456789 1000000000) ∧
    fitsInt64 (scale_whole 10000000 123456789 1000000000 +
      scale_part 10000000 123456789 1000000000) :=
  C2_split_no_overflow 10000000 123456789 (by norm_num) (by norm_num)
    (by norm_num) (by decide)

/-- C4: the compile-time clock selection resolves `high_res_time` by first
match in the order fallback override, cpu_clock, monotonic_raw, monotonic,
win32 performance counter, generic steady fallback; with no capability present
the result is still the steady fallback. -/
theorem C4_selection_precedence (p : PlatformCaps) :
    (p.tracy_timer_fallback = true → high_res_time p = ClockVariant.steady_clock) ∧
    (p.tracy_timer_fallback = false → p.have_cpu_clock_known_frequency = true →
      high_res_time p = ClockVariant.cpu_clock) ∧
    (p.tracy_timer_fallback = false → p.have_cpu_clock_known_frequency = false →
      p.clock_monotonic_raw = true → high_res_time p = ClockVariant.monotonic_raw) ∧
    (p.tracy_timer_fallback = false → p.have_cpu_clock_known_frequency = false →
      p.clock_monotonic_raw = false → p.clock_monotonic = true →
      high_res_time p = ClockVariant.monotonic) ∧
    (p.tracy_timer_fallback = false → p.have_cpu_clock_known_frequency = false →
      p.clock_monotonic_raw = false → p.clock_monotonic = false → p.win32 = true →
      high_res_time p = ClockVariant.win32_performance_counter) ∧
    (p.tracy_timer_fallback = false → p.have_cpu_clock_known_frequency = false →
      p.clock_monotonic_raw = false → p.clock_monotonic = false → p.win32 = false →
      high_res_time p = ClockVariant.steady_clock) := by
  unfold high_res_time
  refine ⟨?_, ?_, ?_, ?_, ?_, ?_⟩ <;> intros <;> simp_all

/-- C4 witness: with no capability present the selection still resolves to the
generic steady fallback. -/
theorem C4_selection_precedence_witness :
    high_res_time ⟨false, false, false, false, false⟩ = ClockVariant.steady_clock :=
  (C4_selection_precedence ⟨false, false, false, false, false⟩).2.2.2.2.2
    rfl rfl rfl rfl rfl

/-- C5: for fixed `f > 0` and `d > 0` the scaling is monotone non-decreasing in
the counter, both on the generic path and through both dispatch switches; so
non-decreasing raw counter reads yield non-decreasing instants. -/
theorem C5_monotone_in_counter (f d c1 c2 : Int) (hf : 0 < f) (hd : 0 < d)
    (hc : c1 ≤ c2) :
    clock_scale_generic f c1 d ≤ clock_scale_generic f c2 d ∧
    qpc_scale_dispatch f c1 ≤ qpc_scale_dispatch f c2 ∧
    cpu_clock_scale_dispatch f c1 ≤ cpu_clock_scale_dispatch f c2 := by
  have key : ∀ e : Int, 0 < e →
      clock_scale_generic f c1 e ≤ clock_scale_generic f c2 e := by
    intro e he
    rw [clock_scale_generic_eq_tdiv f c1 e hf he.le,
      clock_scale_generic_eq_tdiv f c2 e hf he.le]
    exact tdiv_le_tdiv_right f hf (mul_le_mul_of_nonneg_right hc he.le)
  refine ⟨key d hd, ?_, ?_⟩
  · rw [qpc_scale_dispatch_eq_generic, qpc_scale_dispatch_eq_generic]
    exact key nano_period_den (by norm_num [nano_period_den])
  · rw [cpu_clock_scale_dispatch_eq_generic, cpu_clock_scale_dispatch_eq_generic]
    exact key nano_period_den (by norm_num [nano_period_den])

/-- C5 witness at `f = 2`, `d = 3`, counters `-5 ≤ 4`. -/
theorem C5_monotone_in_counter_witness :
    clock_scale_generic 2 (-5) 3 ≤ clock_scale_generic 2 4 3 ∧
    qpc_scale_dispatch 2 (-5) ≤ qpc_scale_dispatch 2 4 ∧
    cpu_clock_scale_dispatch 2 (-5) ≤ cpu_clock_scale_dispatch 2 4 :=
  C5_monotone_in_counter 2 3 (-5) 4 (by norm_num) (by norm_num) (by norm_num)

/-- C6: `frequency == 0` is an unguarded precondition: under `f > 0` every
division and modulus of the split computation is well defined (the checked
embedding never reaches its division-by-zero branch and agrees with the direct
embedding), while at `f = 0` the very same unguarded code divides by zero. -/
theorem C6_unguarded_division (f c d : Int) (hf : 0 < f) :
    clock_scale_generic_checked f c d = some (clock_scale_generic f c d) ∧
    clock_scale_generic_checked 0 c d = none := by
  constructor
  · simp [clock_scale_generic_checked, checkedTDiv, checkedTMod, hf.ne',
      clock_scale_generic]
  · simp [clock_scale_generic_checked, checkedTDiv]

/-- C6 witness at `f = 5`, `c = 7`, `d = 9`. -/
theorem C6_unguarded_division_witness :
    clock_scale_generic_checked 5 7 9 = some (clock_scale_generic 5 7 9) ∧
    clock_scale_generic_checked 0 7 9 = none :=
  C6_unguarded_division 5 7 9 (by norm_num)

/-- C9: the timing core is pure and stateless: `now()` of the scaled variants
writes nothing to the world it reads from, and two runs over worlds with
identical counter and frequency reads produce identical outputs. -/
theorem C9_pure_and_deterministic (w w' : World)
    (h1 : w.qpc_freq = w'.qpc_freq) (h2 : w.qpc_counter = w'.qpc_counter)
    (h3 : w.cpu_freq = w'.cpu_freq) (h4 : w.cpu_counter = w'.cpu_counter) :
    (win32_performance_counter_now w).2 = w ∧
    (cpu_clock_now w).2 = w ∧
    (win32_performance_counter_now w).1 = (win32_performance_counter_now w').1 ∧
    (cpu_clock_now w).1 = (cpu_clock_now w').1 := by
  refine ⟨rfl, rfl, ?_, ?_⟩ <;>
    simp [win32_performance_counter_now, cpu_clock_now, h1, h2, h3, h4]

/-- C9 witness on two worlds with equal reads. -/
theorem C9_pure_and_deterministic_witness :
    (win32_performance_counter_now ⟨10000000, 42, 24000000, 7⟩).2 =
      ⟨10000000, 42, 24000000, 7⟩ ∧
    (cpu_clock_now ⟨10000000, 42, 24000000, 7⟩).2 = ⟨10000000, 42, 24000000, 7⟩ ∧
    (win32_performance_counter_now ⟨10000000, 42, 24000000, 7⟩).1 =
      (win32_performance_counter_now ⟨10000000, 42, 24000000, 7⟩).1 ∧
    (cpu_clock_now ⟨10000000, 42, 24000000, 7⟩).1 =
      (cpu_clock_now ⟨10000000, 42, 24000000, 7⟩).1 :=
  C9_pure_and_deterministic ⟨10000000, 42, 24000000, 7⟩ ⟨10000000, 42, 24000000, 7⟩
    rfl rfl rfl rfl

/-- C10: C++ truncation-toward-zero division makes the scaling odd in the
counter: `clock_scale_generic f (-c) d = -clock_scale_generic f c d`; and for a
negative counter the result is the ceiling of `c * d / f` (it brackets `c * d`
between `(result - 1) * f` exclusive and `result * f` inclusive). -/
theorem C10_truncation_odd_symmetry (f c d : Int) (hf : 0 < f) (hd : 0 < d) :
    clock_scale_generic f (-c) d = -(clock_scale_generic f c d) ∧
    (c < 0 →
      (clock_scale_generic f c d - 1) * f < c * d ∧
      c * d ≤ clock_scale_generic f c d * f) := by
  refine ⟨clock_scale_generic_neg_counter f c d, fun hc => ?_⟩
  rw [clock_scale_generic_eq_tdiv f c d hf hd.le]
  have hneg : c * d < 0 := mul_neg_of_neg_of_pos hc hd
  have hcd : c * d = -(-(c * d)) := by ring
  have ht : Int.tdiv (c * d) f = -(Int.tdiv (-(c * d)) f) := by
    rw [hcd, Int.neg_tdiv, Int.neg_neg]
  rw [ht, Int.tdiv_eq_ediv (by omega) hf.le]
  have ha := Int.lt_ediv_add_one_mul_self (-(c * d)) hf
  have hb := Int.ediv_mul_le (-(c * d)) hf.ne'
  constructor <;> nlinarith [ha, hb]

/-- C10 witness at `f = 10`, `c = -7`, `d = 1000000000`. -/
theorem C10_truncation_odd_symmetry_witness :
    clock_scale_generic 10 (-(-7)) 1000000000 =
      -(clock_scale_generic 10 (-7) 1000000000) ∧
    ((-7 : Int) < 0 →
      (clock_scale_generic 10 (-7) 1000000000 - 1) * 10 < -7 * 1000000000 ∧
      -7 * 1000000000 ≤ clock_scale_generic 10 (-7) 1000000000 * 10) :=
  C10_truncation_odd_symmetry 10 (-7) 1000000000 (by norm_num) (by norm_num)
